import Mathlib

/-
  Verification development for the Genobank/biofs repository.

  The executable logic of the repository lives in three places, and each is
  embedded shallowly below:

  * contracts/BioIPRegistry.sol — the BioIP asset registry: root/derivative
    minting, the one-time-use license-token protocol (registerDerivative),
    consent state transitions (grantConsent / revokeConsent / burnAndDelete),
    delegated permissions, and the lineage query (getLineage).
  * contracts/ConsentRegistry.sol — the consent registry; only its checkConsent
    view is needed by the claims.
  * pkg/biocid (Go) — the BioCID identifier codec: ParseBioCID, String, Validate.

  Solidity conventions captured by the embedding:
  * addresses and uint256 values are modelled as Nat (no arithmetic here ever
    nears 2^256, and all counters only increment by one per call);
  * a mapping is a total function with the zero value of its range as default,
    so the state carries total functions and unminted ids map to zero records;
  * the zero record of the ConsentState enum is PENDING (enum position 0);
  * require(cond, msg) reverts the whole call: an operation either returns the
    fully updated state (Except.ok) or an error naming the failed require
    (Except.error) and then, by EVM revert semantics, the state is unchanged.
    In the source of registerDerivative, mintLicenseTokens, grantConsent,
    revokeConsent and burnAndDelete every require precedes every storage
    write, which the embedding mirrors;
  * msg.sender is never the zero address in the EVM, so reachability steps
    carry the side condition that the caller is nonzero;
  * storage writes are applied one map update at a time, in source order, so
    aliasing (for example registerDerivative with childTokenId equal to the
    parent id) behaves exactly as Solidity storage references do.
-/

namespace BioFS

/-- Addresses are naturals; 0 plays the role of the Solidity zero address. -/
abbrev Addr := Nat

/-- ConsentState enum from both contracts; PENDING is the zero value. -/
inductive ConsentState where
  | PENDING
  | ACTIVE
  | REVOKED
  | DELETED
deriving DecidableEq

/-- Pointwise update of a map modelled as a total function. -/
def Upd {α : Type} (m : Nat → α) (k : Nat) (v : α) : Nat → α :=
  fun k' => if k' = k then v else m k'

/-- Pointwise update of a two-key map. -/
def Upd2 {α : Type} (m : Nat → Nat → α) (k₁ k₂ : Nat) (v : α) : Nat → Nat → α :=
  fun k₁' k₂' => if k₁' = k₁ ∧ k₂' = k₂ then v else m k₁' k₂'

namespace BioIPRegistry

/-- BioIPAsset struct of BioIPRegistry.sol. -/
structure BioIPAsset where
  owner : Addr
  tokenId : Nat
  consentState : ConsentState
  createdAt : Nat
  revokedAt : Nat
  contentHash : Nat
  dataType : String
  dataSize : Nat
  bioCID : Nat
  ipAssetId : Addr
  licenseTermsId : Nat
  hasLicense : Bool
  parentTokenId : Nat
  childTokenIds : List Nat
  generation : Nat
  licenseTokenId : Nat
deriving DecidableEq

/-- LicenseToken struct of BioIPRegistry.sol. -/
structure LicenseToken where
  tokenId : Nat
  parentTokenId : Nat
  mintedFor : Addr
  mintedAt : Nat
  consumed : Bool
  consumedBy : Nat
deriving DecidableEq

/-- DeletionProof struct of BioIPRegistry.sol. -/
structure DeletionProof where
  tokenId : Nat
  deletedAt : Nat
  merkleRoot : Nat
  nodeCount : Nat
  verifiers : List Addr
deriving DecidableEq

/-- Solidity zero value of BioIPAsset (what an unwritten mapping slot holds). -/
def zeroAsset : BioIPAsset :=
  ⟨0, 0, .PENDING, 0, 0, 0, "", 0, 0, 0, 0, false, 0, [], 0, 0⟩

/-- Solidity zero value of LicenseToken. -/
def zeroLicenseToken : LicenseToken := ⟨0, 0, 0, 0, false, 0⟩

/-- Solidity zero value of DeletionProof. -/
def zeroDeletionProof : DeletionProof := ⟨0, 0, 0, 0, []⟩

/-- Full storage of the BioIPRegistry contract. -/
structure RegistryState where
  tokenCtr : Nat
  licCtr : Nat
  bioips : Nat → BioIPAsset
  permittedWallets : Nat → Addr → Bool
  deletionProofs : Nat → DeletionProof
  ownerTokens : Addr → List Nat
  licenseTokens : Nat → LicenseToken
  parentLicenseTokens : Nat → List Nat
  balance : Addr → Nat → Nat

/-- State right after the constructor runs: every mapping holds zero values. -/
def initialState : RegistryState :=
  { tokenCtr := 0
    licCtr := 0
    bioips := fun _ => zeroAsset
    permittedWallets := fun _ _ => false
    deletionProofs := fun _ => zeroDeletionProof
    ownerTokens := fun _ => []
    licenseTokens := fun _ => zeroLicenseToken
    parentLicenseTokens := fun _ => []
    balance := fun _ _ => 0 }

/-- ERC1155 mint of one unit of a token id to an address. -/
def mintBal (b : Addr → Nat → Nat) (a : Addr) (t : Nat) : Addr → Nat → Nat :=
  fun a' t' => if a' = a ∧ t' = t then b a' t' + 1 else b a' t'

/-- ERC1155 burn of one unit of a token id from an address. -/
def burnBal (b : Addr → Nat → Nat) (a : Addr) (t : Nat) : Addr → Nat → Nat :=
  fun a' t' => if a' = a ∧ t' = t then b a' t' - 1 else b a' t'

/-- Error kinds, one per require string of BioIPRegistry.sol. -/
inductive RegErr where
  | notBioIPOwner           -- require message "Not BioIP owner"
  | parentHasNoLicense      -- require message "Parent has no license"
  | consentNotActive        -- require message "Consent not active"
  | notChildOwner           -- require message "Not child owner"
  | licenseTokenAlreadyUsed -- require message "License token already used"
  | licenseNotForYou        -- require message "License not for you"
  | parentConsentRevoked    -- require message "Parent consent revoked"
  | consentNotRevoked       -- require message "Consent not revoked"
deriving DecidableEq

/-- mintRootBioIP of BioIPRegistry.sol; it has no require and always succeeds.
Returns the updated state and the fresh token id. -/
def mintRootBioIP (s : RegistryState) (caller : Addr) (contentHash : Nat)
    (dataType : String) (dataSize : Nat) (bioCID : Nat) (ipAssetId : Addr)
    (licenseTermsId : Nat) (time : Nat) : RegistryState × Nat :=
  let newTokenId := s.tokenCtr + 1
  let asset : BioIPAsset :=
    { owner := caller
      tokenId := newTokenId
      consentState := .ACTIVE
      createdAt := time
      revokedAt := 0
      contentHash := contentHash
      dataType := dataType
      dataSize := dataSize
      bioCID := bioCID
      ipAssetId := ipAssetId
      licenseTermsId := licenseTermsId
      hasLicense := true
      parentTokenId := 0
      childTokenIds := []
      generation := 0
      licenseTokenId := 0 }
  ({ s with tokenCtr := newTokenId
            balance := mintBal s.balance caller newTokenId
            bioips := Upd s.bioips newTokenId asset
            ownerTokens := Upd s.ownerTokens caller (s.ownerTokens caller ++ [newTokenId]) },
   newTokenId)

/-- mintDerivativeBioIP of BioIPRegistry.sol; like the root mint but with no
license terms, no parent link and generation zero, all to be set later by
registerDerivative. -/
def mintDerivativeBioIP (s : RegistryState) (caller : Addr) (contentHash : Nat)
    (dataType : String) (dataSize : Nat) (bioCID : Nat) (ipAssetId : Addr)
    (time : Nat) : RegistryState × Nat :=
  let newTokenId := s.tokenCtr + 1
  let asset : BioIPAsset :=
    { owner := caller
      tokenId := newTokenId
      consentState := .ACTIVE
      createdAt := time
      revokedAt := 0
      contentHash := contentHash
      dataType := dataType
      dataSize := dataSize
      bioCID := bioCID
      ipAssetId := ipAssetId
      licenseTermsId := 0
      hasLicense := false
      parentTokenId := 0
      childTokenIds := []
      generation := 0
      licenseTokenId := 0 }
  ({ s with tokenCtr := newTokenId
            balance := mintBal s.balance caller newTokenId
            bioips := Upd s.bioips newTokenId asset
            ownerTokens := Upd s.ownerTokens caller (s.ownerTokens caller ++ [newTokenId]) },
   newTokenId)

/-- The for loop inside mintLicenseTokens: allocate the given number of fresh
license tokens, one counter increment per token, returning the ids in the
order they are minted. -/
def mintLicenseLoop (s : RegistryState) (parentTokenId : Nat) (receiver : Addr)
    (time : Nat) : Nat → RegistryState × List Nat
  | 0 => (s, [])
  | Nat.succ n =>
    let newId := s.licCtr + 1
    let tok : LicenseToken :=
      { tokenId := newId
        parentTokenId := parentTokenId
        mintedFor := receiver
        mintedAt := time
        consumed := false
        consumedBy := 0 }
    let s₁ : RegistryState :=
      { s with licCtr := newId
               licenseTokens := Upd s.licenseTokens newId tok
               parentLicenseTokens := Upd s.parentLicenseTokens parentTokenId
                 (s.parentLicenseTokens parentTokenId ++ [newId]) }
    let r := mintLicenseLoop s₁ parentTokenId receiver time n
    (r.1, newId :: r.2)

/-- mintLicenseTokens of BioIPRegistry.sol. -/
def mintLicenseTokens (s : RegistryState) (caller : Addr) (parentTokenId : Nat)
    (receiver : Addr) (amount : Nat) (time : Nat) :
    Except RegErr (RegistryState × List Nat) :=
  if s.balance caller parentTokenId = 0 then .error .notBioIPOwner
  else if (s.bioips parentTokenId).hasLicense = false then .error .parentHasNoLicense
  else if (s.bioips parentTokenId).consentState ≠ .ACTIVE then .error .consentNotActive
  else .ok (mintLicenseLoop s parentTokenId receiver time amount)

/-- The storage-write block of registerDerivative, one write per line of the
source, each reading from the map produced by the previous write so that the
aliased case childTokenId = parentTokenId behaves like Solidity storage. -/
def linkWrites (s : RegistryState) (childTokenId licenseTokenId : Nat) :
    RegistryState :=
  let parentTokenId := (s.licenseTokens licenseTokenId).parentTokenId
  let b₁ := Upd s.bioips childTokenId
    { s.bioips childTokenId with parentTokenId := parentTokenId }
  let b₂ := Upd b₁ childTokenId
    { b₁ childTokenId with generation := (b₁ parentTokenId).generation + 1 }
  let b₃ := Upd b₂ childTokenId
    { b₂ childTokenId with licenseTokenId := licenseTokenId }
  let b₄ := Upd b₃ childTokenId
    { b₃ childTokenId with licenseTermsId := (b₃ parentTokenId).licenseTermsId }
  let b₅ := Upd b₄ parentTokenId
    { b₄ parentTokenId with childTokenIds := (b₄ parentTokenId).childTokenIds ++ [childTokenId] }
  let lt := Upd s.licenseTokens licenseTokenId
    { s.licenseTokens licenseTokenId with consumed := true, consumedBy := childTokenId }
  { s with bioips := b₅, licenseTokens := lt }

/-- registerDerivative of BioIPRegistry.sol: consume a license token to link a
child under the parent the token was minted from. -/
def registerDerivative (s : RegistryState) (caller : Addr)
    (childTokenId licenseTokenId : Nat) : Except RegErr RegistryState :=
  if s.balance caller childTokenId = 0 then .error .notChildOwner
  else if (s.licenseTokens licenseTokenId).consumed then .error .licenseTokenAlreadyUsed
  else if (s.licenseTokens licenseTokenId).mintedFor ≠ caller then .error .licenseNotForYou
  else if (s.bioips (s.licenseTokens licenseTokenId).parentTokenId).consentState ≠ .ACTIVE then
    .error .parentConsentRevoked
  else .ok (linkWrites s childTokenId licenseTokenId)

/-- grantConsent of BioIPRegistry.sol (reactivate a revoked asset). -/
def grantConsent (s : RegistryState) (caller : Addr) (tokenId : Nat) :
    Except RegErr RegistryState :=
  if s.balance caller tokenId = 0 then .error .notBioIPOwner
  else if (s.bioips tokenId).consentState ≠ .REVOKED then .error .consentNotRevoked
  else
    let b := Upd s.bioips tokenId
      { s.bioips tokenId with consentState := .ACTIVE, revokedAt := 0 }
    .ok { s with bioips := b }

/-- revokeConsent of BioIPRegistry.sol. -/
def revokeConsent (s : RegistryState) (caller : Addr) (tokenId : Nat) (time : Nat) :
    Except RegErr RegistryState :=
  if s.balance caller tokenId = 0 then .error .notBioIPOwner
  else if (s.bioips tokenId).consentState ≠ .ACTIVE then .error .consentNotActive
  else
    let b := Upd s.bioips tokenId
      { s.bioips tokenId with consentState := .REVOKED, revokedAt := time }
    .ok { s with bioips := b }

/-- burnAndDelete of BioIPRegistry.sol: burns the NFT, marks the asset
DELETED and overwrites the deletion-proof slot; its only require is the
ownership check. -/
def burnAndDelete (s : RegistryState) (caller : Addr) (tokenId : Nat)
    (merkleRoot nodeCount time : Nat) : Except RegErr RegistryState :=
  if s.balance caller tokenId = 0 then .error .notBioIPOwner
  else .ok { s with
    balance := burnBal s.balance caller tokenId
    bioips := Upd s.bioips tokenId { s.bioips tokenId with consentState := .DELETED }
    deletionProofs := Upd s.deletionProofs tokenId ⟨tokenId, time, merkleRoot, nodeCount, []⟩ }

/-- grantPermission of BioIPRegistry.sol. -/
def grantPermission (s : RegistryState) (caller : Addr) (tokenId : Nat)
    (wallet : Addr) : Except RegErr RegistryState :=
  if s.balance caller tokenId = 0 then .error .notBioIPOwner
  else if (s.bioips tokenId).consentState ≠ .ACTIVE then .error .consentNotActive
  else .ok { s with permittedWallets := Upd2 s.permittedWallets tokenId wallet true }

/-- revokePermission of BioIPRegistry.sol; note there is no consent-state
require here, only ownership. -/
def revokePermission (s : RegistryState) (caller : Addr) (tokenId : Nat)
    (wallet : Addr) : Except RegErr RegistryState :=
  if s.balance caller tokenId = 0 then .error .notBioIPOwner
  else .ok { s with permittedWallets := Upd2 s.permittedWallets tokenId wallet false }

/-- checkConsent view of BioIPRegistry.sol. -/
def checkConsent (s : RegistryState) (tokenId : Nat) (wallet : Addr) : Bool :=
  if (s.bioips tokenId).consentState ≠ .ACTIVE then false
  else if (s.bioips tokenId).owner = wallet then true
  else if s.permittedWallets tokenId wallet then true
  else false

/-- The loop of getLineage walks parent links upward; the i-th iteration
visits the (i+1)-fold parent of the start token. -/
def lineageWalk (s : RegistryState) : Nat → Nat → List Nat
  | 0, _ => []
  | Nat.succ n, cur =>
    let p := (s.bioips cur).parentTokenId
    p :: lineageWalk s n p

/-- getLineage of BioIPRegistry.sol. The Solidity loop stores the token
visited at iteration i into slot generation - 1 - i of the result array, so
the produced array is the upward parent walk written back to front; the
embedding renders that as the reverse of the walk. -/
def getLineage (s : RegistryState) (tokenId : Nat) : List Nat :=
  (lineageWalk s (s.bioips tokenId).generation tokenId).reverse

/-- External mutating entry points of the contract, with the caller and block
timestamp as explicit arguments. -/
inductive Op where
  | mintRootBioIP (caller : Addr) (contentHash : Nat) (dataType : String)
      (dataSize bioCID : Nat) (ipAssetId : Addr) (licenseTermsId time : Nat)
  | mintLicenseTokens (caller : Addr) (parentTokenId : Nat) (receiver : Addr)
      (amount time : Nat)
  | mintDerivativeBioIP (caller : Addr) (contentHash : Nat) (dataType : String)
      (dataSize bioCID : Nat) (ipAssetId : Addr) (time : Nat)
  | registerDerivative (caller : Addr) (childTokenId licenseTokenId : Nat)
  | grantConsent (caller : Addr) (tokenId : Nat)
  | revokeConsent (caller : Addr) (tokenId time : Nat)
  | burnAndDelete (caller : Addr) (tokenId merkleRoot nodeCount time : Nat)
  | grantPermission (caller : Addr) (tokenId : Nat) (wallet : Addr)
  | revokePermission (caller : Addr) (tokenId : Nat) (wallet : Addr)

/-- The transaction sender of an operation. -/
def Op.caller : Op → Addr
  | .mintRootBioIP c _ _ _ _ _ _ _ => c
  | .mintLicenseTokens c _ _ _ _ => c
  | .mintDerivativeBioIP c _ _ _ _ _ _ => c
  | .registerDerivative c _ _ => c
  | .grantConsent c _ => c
  | .revokeConsent c _ _ => c
  | .burnAndDelete c _ _ _ _ => c
  | .grantPermission c _ _ => c
  | .revokePermission c _ _ => c

/-- Run one external call against the state; return values are dropped. -/
def exec (s : RegistryState) : Op → Except RegErr RegistryState
  | .mintRootBioIP c ch dt ds bc ip lt t =>
    .ok (mintRootBioIP s c ch dt ds bc ip lt t).1
  | .mintLicenseTokens c p r n t =>
    (mintLicenseTokens s c p r n t).map (·.1)
  | .mintDerivativeBioIP c ch dt ds bc ip t =>
    .ok (mintDerivativeBioIP s c ch dt ds bc ip t).1
  | .registerDerivative c cid lid => registerDerivative s c cid lid
  | .grantConsent c t => grantConsent s c t
  | .revokeConsent c t tm => revokeConsent s c t tm
  | .burnAndDelete c t mr nc tm => burnAndDelete s c t mr nc tm
  | .grantPermission c t w => grantPermission s c t w
  | .revokePermission c t w => revokePermission s c t w

/-- Transaction semantics of a call: a revert (error) leaves the state as it
was, a success commits the updated state. -/
def stepD (s : RegistryState) (op : Op) : RegistryState :=
  match exec s op with
  | .ok s' => s'
  | .error _ => s

/-- States reachable from the deployed contract by any sequence of external
calls; a caller is never the zero address (EVM guarantee on msg.sender). -/
inductive Reachable : RegistryState → Prop where
  | init : Reachable initialState
  | step {s s' : RegistryState} {op : Op} (hs : Reachable s)
      (hc : op.caller ≠ 0) (hex : exec s op = .ok s') : Reachable s'

/-- Invariant on registry storage, proved below to hold in every reachable
state. Conjunct one is the generation and parent-link correspondence; conjunct
two records that a license token with a nonzero recipient was really minted
and therefore carries a nonzero parent id; conjunct three says token id 0 is
never minted; conjunct four says no existing asset is PENDING. -/
def Inv (s : RegistryState) : Prop :=
  (∀ t, (s.bioips t).generation = 0 ↔ (s.bioips t).parentTokenId = 0) ∧
  (∀ l, (s.licenseTokens l).mintedFor ≠ 0 → (s.licenseTokens l).parentTokenId ≠ 0) ∧
  (∀ a, s.balance a 0 = 0) ∧
  (∀ t, 1 ≤ t → t ≤ s.tokenCtr → (s.bioips t).consentState ≠ .PENDING)

/-- Iterated parent link: the k-fold parent of a token. -/
def iterParent (s : RegistryState) : Nat → Nat → Nat
  | 0, t => t
  | Nat.succ k, t => iterParent s k ((s.bioips t).parentTokenId)

/-- A lineage tree is well formed when every asset satisfies the generation
and parent-link discipline of the data model: parentless assets sit at
generation zero and every linked asset sits one generation below its parent. -/
def WellFormedLineage (s : RegistryState) : Prop :=
  ∀ t, ((s.bioips t).parentTokenId = 0 → (s.bioips t).generation = 0) ∧
    ((s.bioips t).parentTokenId ≠ 0 →
      (s.bioips t).generation = (s.bioips (s.bioips t).parentTokenId).generation + 1)

/-
  A concrete execution trace shared by several claims. Wallet 100 mints two
  root assets (token 1 with license terms 10, token 2 with license terms 20)
  and a derivative shell (token 3); wallet 200 mints a derivative shell
  (token 4); wallet 100 mints one license token from each root (license 1
  from root 1, license 2 from root 2) and then consumes license 1 to link
  token 3 under root 1.
-/

/-- Trace operation 1: wallet 100 mints root token 1, license terms 10. -/
def traceOp1 : Op := .mintRootBioIP 100 11 "vcf" 5 21 31 10 0

/-- Trace operation 2: wallet 100 mints root token 2, license terms 20. -/
def traceOp2 : Op := .mintRootBioIP 100 12 "vcf" 5 22 32 20 0

/-- Trace operation 3: wallet 100 mints derivative shell token 3. -/
def traceOp3 : Op := .mintDerivativeBioIP 100 13 "bam" 6 23 33 1

/-- Trace operation 4: wallet 200 mints derivative shell token 4. -/
def traceOp4 : Op := .mintDerivativeBioIP 200 14 "bam" 6 24 34 1

/-- Trace operation 5: wallet 100 mints license token 1 from root 1. -/
def traceOp5 : Op := .mintLicenseTokens 100 1 100 1 2

/-- Trace operation 6: wallet 100 mints license token 2 from root 2. -/
def traceOp6 : Op := .mintLicenseTokens 100 2 100 1 2

/-- Trace operation 7: wallet 100 consumes license 1 to link 3 under 1. -/
def traceOp7 : Op := .registerDerivative 100 3 1

/-- Trace state after operation 1. -/
def traceS1 : RegistryState := stepD initialState traceOp1

/-- Trace state after operation 2. -/
def traceS2 : RegistryState := stepD traceS1 traceOp2

/-- Trace state after operation 3. -/
def traceS3 : RegistryState := stepD traceS2 traceOp3

/-- Trace state after operation 4. -/
def traceS4 : RegistryState := stepD traceS3 traceOp4

/-- Trace state after operation 5. -/
def traceS5 : RegistryState := stepD traceS4 traceOp5

/-- Trace state after operation 6. -/
def traceS6 : RegistryState := stepD traceS5 traceOp6

/-- Trace state after operation 7: license 1 is consumed by token 3, token 3
is linked under root 1, and license 2 is still unconsumed. -/
def traceS7 : RegistryState := stepD traceS6 traceOp7

/-- Continuation of the trace used against the generation invariant: wallet
100 consumes license 2 to register root 1 itself — which already has child
3 — as a derivative of root 2. -/
def traceS8 : RegistryState := stepD traceS7 (.registerDerivative 100 1 2)

/-- Continuation of the trace in which the already linked child 3 is linked
a second time, under root 2, by consuming license 2. -/
def traceS9 : RegistryState := stepD traceS7 (.registerDerivative 100 3 2)

/-- Continuation of the trace: wallet 100 burns root 2 and records a
deletion proof. -/
def traceS10 : RegistryState := stepD traceS7 (.burnAndDelete 100 2 77 9 5)

/-- A three-asset chain used for the lineage claims: token 1 is the root,
token 2 its child, token 3 its grandchild. All other slots are zero. -/
def chainAssets : Nat → BioIPAsset :=
  Upd (Upd (Upd (fun _ => zeroAsset)
    1 { zeroAsset with tokenId := 1 })
    2 { zeroAsset with tokenId := 2, parentTokenId := 1, generation := 1 })
    3 { zeroAsset with tokenId := 3, parentTokenId := 2, generation := 2 }

/-- Registry state holding the three-asset chain. -/
def chainState : RegistryState := { initialState with tokenCtr := 3, bioips := chainAssets }

end BioIPRegistry

namespace ConsentRegistry

/-- ConsentMetadata struct of ConsentRegistry.sol. -/
structure ConsentMetadata where
  owner : Addr
  tokenId : Nat
  state : ConsentState
  createdAt : Nat
  revokedAt : Nat
  contentHash : Nat
  dataType : String
  dataSize : Nat
  bioCID : Nat
deriving DecidableEq

/-- The storage of ConsentRegistry.sol that its checkConsent view reads. -/
structure CRState where
  consents : Nat → ConsentMetadata
  permittedWallets : Nat → Addr → Bool

/-- checkConsent view of ConsentRegistry.sol. -/
def checkConsent (s : CRState) (tokenId : Nat) (wallet : Addr) : Bool :=
  if (s.consents tokenId).state ≠ .ACTIVE then false
  else if (s.consents tokenId).owner = wallet then true
  else if s.permittedWallets tokenId wallet then true
  else false

/-- A concrete consent-registry state whose token 1 is REVOKED and owned by
wallet 7; used to exercise the fail-closed direction of checkConsent. -/
def sampleCR : CRState :=
  { consents := Upd (fun _ => ⟨0, 0, .PENDING, 0, 0, 0, "", 0, 0⟩) 1
      ⟨7, 1, .REVOKED, 0, 3, 0, "vcf", 0, 0⟩
    permittedWallets := fun _ _ => false }

end ConsentRegistry

namespace biocid

/-
  Embedding of pkg/biocid (Go). Go strings are modelled as lists of
  characters so that the split and join functions of the standard library
  admit direct structural recursion:
  * strings.Split(s, "/")  becomes splitOnSlash,
  * strings.Join(parts, "/") becomes joinSlash,
  * strings.HasPrefix / TrimPrefix become List.isPrefixOf / List.drop.
-/

/-- Go strings, as lists of characters. -/
abbrev Str := List Char

/-- Go strings.Split with the single-character separator "/": splits around
every slash, keeping empty segments, and returns one segment even for the
empty string. -/
def splitOnSlash : Str → List Str
  | [] => [[]]
  | c :: rest =>
    if c = '/' then [] :: splitOnSlash rest
    else
      match splitOnSlash rest with
      | [] => [[c]]
      | h :: t => (c :: h) :: t

/-- Go strings.Join with separator "/". -/
def joinSlash : List Str → Str
  | [] => []
  | [x] => x
  | x :: xs => x ++ '/' :: joinSlash xs

/-- BioCID struct of pkg/biocid (Go), all six fields. -/
structure BioCID where
  Version : Str
  Chain : Str
  Collection : Str
  TokenID : Str
  ContentHash : Str
  ConsentSig : Str
deriving DecidableEq

/-- The scheme head that every canonical BioCID string carries. -/
def schemeHead : Str := "biocid://".data

/-- String method of BioCID (Go): the canonical encoding
biocid://version/chain/collection/tokenId/contentHash/consentSig. -/
def BioCID.render (b : BioCID) : Str :=
  schemeHead ++ b.Version ++ '/' :: b.Chain ++ '/' :: b.Collection ++
    '/' :: b.TokenID ++ '/' :: b.ContentHash ++ '/' :: b.ConsentSig

/-- ParseBioCID (Go): strip the scheme head, split on slashes, require at
least five segments, and reassemble every segment from the sixth onward into
the consent signature, which may itself contain slashes. -/
def ParseBioCID (s : Str) : Option BioCID :=
  if schemeHead.isPrefixOf s then
    let rest := s.drop schemeHead.length
    let parts := splitOnSlash rest
    if parts.length < 5 then none
    else some
      { Version := parts.getD 0 []
        Chain := parts.getD 1 []
        Collection := parts.getD 2 []
        TokenID := parts.getD 3 []
        ContentHash := parts.getD 4 []
        ConsentSig := joinSlash (parts.drop 5) }
  else none

/-- The supported chains (validChains map in the Go source). -/
def validChain (c : Str) : Bool :=
  c = "story".data ∨ c = "avalanche".data ∨ c = "ethereum".data

/-- Validate method of BioCID (Go), with checks in source order; true models
a nil error. -/
def Validate (b : BioCID) : Bool :=
  if b.Version ≠ "v1".data then false
  else if b.Chain = [] then false
  else if ¬ validChain b.Chain then false
  else if ¬ ("0x".data.isPrefixOf b.Collection ∧ b.Collection.length = 42) then false
  else if b.TokenID = [] then false
  else if b.ContentHash.length ≠ 64 then false
  else if ¬ "0x".data.isPrefixOf b.ConsentSig then false
  else true

/-- Collection address used by the concrete codec inputs: 0x followed by
forty letters a, a 42-character string. -/
def sampleCollection : Str := ("0x" ++ String.mk (List.replicate 40 'a')).data

/-- Content hash used by the concrete codec inputs: 64 letters b. -/
def sampleHash : Str := (String.mk (List.replicate 64 'b')).data

/-- A valid identifier whose consent signature contains a slash. -/
def cidSlashSig : BioCID :=
  ⟨"v1".data, "story".data, sampleCollection, "1".data, sampleHash, "0xc/d".data⟩

/-- A tuple that passes Validate — the token id is merely required to be
nonempty — but whose TokenID contains a slash. -/
def cidSlashTok : BioCID :=
  ⟨"v1".data, "story".data, sampleCollection, "1/2".data, sampleHash, "0xc".data⟩

end biocid

/-
  Theorems. Generic map-update lemmas first, then the codec, then the
  registry, then the claim theorems with their witnesses and
  counterexamples.
-/

theorem Upd_same {α : Type} (m : Nat → α) (k : Nat) (v : α) : Upd m k v k = v := by
  simp [Upd]

theorem Upd_ne {α : Type} (m : Nat → α) {k k' : Nat} (v : α) (h : k' ≠ k) :
    Upd m k v k' = m k' := by
  simp [Upd, h]

namespace biocid

theorem splitOnSlash_ne_nil (s : Str) : splitOnSlash s ≠ [] := by
  cases s with
  | nil => simp [splitOnSlash]
  | cons c rest =>
    simp only [splitOnSlash]
    split
    · simp
    · split <;> simp

theorem joinSlash_cons (x : Str) {xs : List Str} (h : xs ≠ []) :
    joinSlash (x :: xs) = x ++ '/' :: joinSlash xs := by
  cases xs with
  | nil => exact absurd rfl h
  | cons y ys => rfl

theorem joinSlash_splitOnSlash (s : Str) : joinSlash (splitOnSlash s) = s := by
  induction s with
  | nil => rfl
  | cons c rest ih =>
    by_cases hc : c = '/'
    · subst hc
      rw [show splitOnSlash ('/' :: rest) = [] :: splitOnSlash rest from by
        simp [splitOnSlash]]
      rw [joinSlash_cons _ (splitOnSlash_ne_nil rest), ih]
      rfl
    · obtain ⟨h, t, hs⟩ : ∃ h t, splitOnSlash rest = h :: t := by
        cases hsp : splitOnSlash rest with
        | nil => exact absurd hsp (splitOnSlash_ne_nil rest)
        | cons h t => exact ⟨h, t, rfl⟩
      rw [show splitOnSlash (c :: rest) = (c :: h) :: t from by
        simp [splitOnSlash, hc, hs]]
      rw [hs] at ih
      cases t with
      | nil => simpa [joinSlash] using congrArg (c :: ·) ih
      | cons y ys =>
        rw [joinSlash_cons _ (by simp), List.cons_append]
        rw [joinSlash_cons _ (by simp)] at ih
        rw [ih]

theorem splitOnSlash_append : ∀ (a b : Str), '/' ∉ a →
    splitOnSlash (a ++ '/' :: b) = a :: splitOnSlash b := by
  intro a
  induction a with
  | nil => intro b _; simp [splitOnSlash]
  | cons c cs ih =>
    intro b hmem
    have hc : ¬ (c = '/') := fun h => hmem (by simp [h])
    have hcs : '/' ∉ cs := fun h => hmem (by simp [h])
    rw [List.cons_append]
    simp only [splitOnSlash, if_neg hc, ih b hcs]

theorem isPrefixOf_self_append (p l : Str) : p.isPrefixOf (p ++ l) = true := by
  induction p with
  | nil => simp [List.isPrefixOf]
  | cons c cs ih => simp [List.isPrefixOf, ih]

theorem Validate_elim {b : BioCID} (h : Validate b = true) :
    b.Version = "v1".data ∧ validChain b.Chain = true := by
  unfold Validate at h
  repeat split at h
  all_goals simp_all

theorem validChain_no_slash {c : Str} (h : validChain c = true) : '/' ∉ c := by
  unfold validChain at h
  rw [decide_eq_true_iff] at h
  rcases h with h | h | h <;> subst h <;> decide

theorem parse_render {b : BioCID} (hv : Validate b = true)
    (hco : '/' ∉ b.Collection) (hto : '/' ∉ b.TokenID) (hha : '/' ∉ b.ContentHash) :
    ParseBioCID b.render = some b := by
  obtain ⟨hver, hchain⟩ := Validate_elim hv
  have hvs : '/' ∉ b.Version := by rw [hver]; decide
  have hcs : '/' ∉ b.Chain := validChain_no_slash hchain
  obtain ⟨V, C, Co, T, H, Sig⟩ := b
  simp only at hvs hcs hco hto hha
  have hrender : BioCID.render ⟨V, C, Co, T, H, Sig⟩ =
      schemeHead ++ (V ++ '/' :: (C ++ '/' :: (Co ++ '/' :: (T ++ '/' :: (H ++ '/' :: Sig))))) := by
    simp [BioCID.render]
  have hsplit : splitOnSlash
      (V ++ '/' :: (C ++ '/' :: (Co ++ '/' :: (T ++ '/' :: (H ++ '/' :: Sig))))) =
      V :: C :: Co :: T :: H :: splitOnSlash Sig := by
    rw [splitOnSlash_append _ _ hvs, splitOnSlash_append _ _ hcs,
      splitOnSlash_append _ _ hco, splitOnSlash_append _ _ hto,
      splitOnSlash_append _ _ hha]
  rw [hrender]
  unfold ParseBioCID
  rw [isPrefixOf_self_append]
  simp only [if_true]
  rw [show (schemeHead ++
      (V ++ '/' :: (C ++ '/' :: (Co ++ '/' :: (T ++ '/' :: (H ++ '/' :: Sig)))))).drop
      schemeHead.length =
      (V ++ '/' :: (C ++ '/' :: (Co ++ '/' :: (T ++ '/' :: (H ++ '/' :: Sig))))) from
    List.drop_left _ _]
  rw [hsplit]
  have hlen : ¬ ((V :: C :: Co :: T :: H :: splitOnSlash Sig).length < 5) := by simp
  rw [if_neg hlen]
  simp [List.getD, joinSlash_splitOnSlash]

/-- Claim C3: for every field tuple that passes validation, decoding the
canonical encoding returns exactly the original tuple. This fails as stated:
validation does not forbid slashes inside Collection, TokenID or
ContentHash, and a slash there shifts the parsed segments. The amended claim
adds those three slash-freeness conditions; the consent signature may still
contain slashes, as the claim highlights. -/
theorem c3_decode_encode_roundtrip {b : BioCID} (hv : Validate b = true)
    (hco : '/' ∉ b.Collection) (hto : '/' ∉ b.TokenID) (hha : '/' ∉ b.ContentHash) :
    ParseBioCID b.render = some b :=
  parse_render hv hco hto hha

/-- Witness for C3: a concrete valid identifier whose consent signature
contains a slash round-trips exactly. -/
theorem c3_decode_encode_roundtrip_witness :
    Validate cidSlashSig = true ∧ ParseBioCID cidSlashSig.render = some cidSlashSig :=
  ⟨by decide, @c3_decode_encode_roundtrip cidSlashSig
    (by decide) (by decide) (by decide) (by decide)⟩

/-- Counterexample for C3 as stated: cidSlashTok passes Validate (its token
id is nonempty, which is all Validate asks of it) yet decoding its encoding
does not return it — the slash inside TokenID shifts every later segment. -/
theorem c3_counterexample :
    Validate cidSlashTok = true ∧ ParseBioCID cidSlashTok.render ≠ some cidSlashTok :=
  ⟨by decide, by decide⟩

end biocid

namespace BioIPRegistry

theorem linkWrites_parentTokenId (s : RegistryState) (c l t : Nat) :
    ((linkWrites s c l).bioips t).parentTokenId =
      if t = c then (s.licenseTokens l).parentTokenId else (s.bioips t).parentTokenId := by
  by_cases htc : t = c <;> by_cases htp : t = (s.licenseTokens l).parentTokenId <;>
    by_cases hpc : (s.licenseTokens l).parentTokenId = c <;>
    simp_all [linkWrites, Upd]

theorem linkWrites_generation (s : RegistryState) (c l t : Nat) :
    ((linkWrites s c l).bioips t).generation =
      if t = c then (s.bioips (s.licenseTokens l).parentTokenId).generation + 1
      else (s.bioips t).generation := by
  by_cases htc : t = c <;> by_cases htp : t = (s.licenseTokens l).parentTokenId <;>
    by_cases hpc : (s.licenseTokens l).parentTokenId = c <;>
    simp_all [linkWrites, Upd]

theorem linkWrites_consentState (s : RegistryState) (c l t : Nat) :
    ((linkWrites s c l).bioips t).consentState = (s.bioips t).consentState := by
  by_cases htc : t = c <;> by_cases htp : t = (s.licenseTokens l).parentTokenId <;>
    by_cases hpc : (s.licenseTokens l).parentTokenId = c <;>
    simp_all [linkWrites, Upd]

theorem linkWrites_licenseTokenId (s : RegistryState) (c l t : Nat) :
    ((linkWrites s c l).bioips t).licenseTokenId =
      if t = c then l else (s.bioips t).licenseTokenId := by
  by_cases htc : t = c <;> by_cases htp : t = (s.licenseTokens l).parentTokenId <;>
    by_cases hpc : (s.licenseTokens l).parentTokenId = c <;>
    simp_all [linkWrites, Upd]

theorem linkWrites_licenseTermsId (s : RegistryState) (c l t : Nat) :
    ((linkWrites s c l).bioips t).licenseTermsId =
      if t = c then (s.bioips (s.licenseTokens l).parentTokenId).licenseTermsId
      else (s.bioips t).licenseTermsId := by
  by_cases htc : t = c <;> by_cases htp : t = (s.licenseTokens l).parentTokenId <;>
    by_cases hpc : (s.licenseTokens l).parentTokenId = c <;>
    simp_all [linkWrites, Upd]

theorem linkWrites_childTokenIds (s : RegistryState) (c l t : Nat) :
    ((linkWrites s c l).bioips t).childTokenIds =
      if t = (s.licenseTokens l).parentTokenId then (s.bioips t).childTokenIds ++ [c]
      else (s.bioips t).childTokenIds := by
  by_cases htc : t = c <;> by_cases htp : t = (s.licenseTokens l).parentTokenId <;>
    by_cases hpc : (s.licenseTokens l).parentTokenId = c <;>
    simp_all [linkWrites, Upd]

theorem linkWrites_licenseTokens (s : RegistryState) (c l l' : Nat) :
    (linkWrites s c l).licenseTokens l' =
      if l' = l then { s.licenseTokens l with consumed := true, consumedBy := c }
      else s.licenseTokens l' := by
  by_cases hll : l' = l <;> simp_all [linkWrites, Upd]

theorem linkWrites_misc (s : RegistryState) (c l : Nat) :
    (linkWrites s c l).tokenCtr = s.tokenCtr ∧ (linkWrites s c l).licCtr = s.licCtr ∧
    (linkWrites s c l).balance = s.balance ∧
    (linkWrites s c l).permittedWallets = s.permittedWallets ∧
    (linkWrites s c l).deletionProofs = s.deletionProofs ∧
    (linkWrites s c l).ownerTokens = s.ownerTokens := by
  simp [linkWrites]

theorem registerDerivative_ok_elim {s : RegistryState} {caller c l : Nat} {s' : RegistryState}
    (h : registerDerivative s caller c l = .ok s') :
    0 < s.balance caller c ∧ (s.licenseTokens l).consumed = false ∧
    (s.licenseTokens l).mintedFor = caller ∧
    (s.bioips (s.licenseTokens l).parentTokenId).consentState = .ACTIVE ∧
    s' = linkWrites s c l := by
  unfold registerDerivative at h
  split at h
  · exact absurd h (by simp)
  split at h
  · exact absurd h (by simp)
  split at h
  · exact absurd h (by simp)
  split at h
  · exact absurd h (by simp)
  rename_i h1 h2 h3 h4
  refine ⟨Nat.pos_of_ne_zero h1, by simpa using h2, by simpa using h3, by simpa using h4, ?_⟩
  cases h
  rfl

theorem registerDerivative_error_already {s : RegistryState} {caller c l : Nat}
    (hbal : 0 < s.balance caller c) (hcon : (s.licenseTokens l).consumed = true) :
    registerDerivative s caller c l = .error .licenseTokenAlreadyUsed := by
  unfold registerDerivative
  rw [if_neg (Nat.pos_iff_ne_zero.mp hbal), if_pos hcon]

theorem mintLicenseLoop_misc (p r tm : Nat) :
    ∀ (n : Nat) (s : RegistryState),
    (mintLicenseLoop s p r tm n).1.bioips = s.bioips ∧
    (mintLicenseLoop s p r tm n).1.balance = s.balance ∧
    (mintLicenseLoop s p r tm n).1.tokenCtr = s.tokenCtr ∧
    (mintLicenseLoop s p r tm n).1.licCtr = s.licCtr + n ∧
    (mintLicenseLoop s p r tm n).1.permittedWallets = s.permittedWallets ∧
    (mintLicenseLoop s p r tm n).1.deletionProofs = s.deletionProofs ∧
    (mintLicenseLoop s p r tm n).1.ownerTokens = s.ownerTokens := by
  intro n
  induction n with
  | zero => intro s; simp [mintLicenseLoop]
  | succ n ih =>
    intro s
    simp only [mintLicenseLoop]
    obtain ⟨h1, h2, h3, h4, h5, h6, h7⟩ := ih _
    refine ⟨h1, h2, h3, ?_, h5, h6, h7⟩
    rw [h4]
    dsimp only
    omega

theorem mintLicenseLoop_ids (p r tm : Nat) :
    ∀ (n : Nat) (s : RegistryState),
    (mintLicenseLoop s p r tm n).2 = (List.range n).map (fun i => s.licCtr + 1 + i) := by
  intro n
  induction n with
  | zero => intro s; simp [mintLicenseLoop]
  | succ n ih =>
    intro s
    simp only [mintLicenseLoop, ih]
    rw [List.range_succ_eq_map]
    simp [List.map_map, Function.comp]
    intro i _
    omega

theorem mintLicenseLoop_tokens_le (p r tm : Nat) :
    ∀ (n : Nat) (s : RegistryState) (id : Nat), id ≤ s.licCtr →
    (mintLicenseLoop s p r tm n).1.licenseTokens id = s.licenseTokens id := by
  intro n
  induction n with
  | zero => intro s id _; simp [mintLicenseLoop]
  | succ n ih =>
    intro s id hid
    simp only [mintLicenseLoop]
    rw [ih _ _ (by simp; omega)]
    exact Upd_ne _ _ (by omega)

theorem mintLicenseLoop_tokens_new (p r tm : Nat) :
    ∀ (n : Nat) (s : RegistryState) (id : Nat), s.licCtr < id → id ≤ s.licCtr + n →
    (mintLicenseLoop s p r tm n).1.licenseTokens id = ⟨id, p, r, tm, false, 0⟩ := by
  intro n
  induction n with
  | zero => intro s id h1 h2; omega
  | succ n ih =>
    intro s id h1 h2
    simp only [mintLicenseLoop]
    by_cases hid : id = s.licCtr + 1
    · rw [mintLicenseLoop_tokens_le _ _ _ _ _ _ (by simp; omega)]
      subst hid
      exact Upd_same _ _ _
    · exact ih _ _ (by simp; omega) (by simp; omega)

theorem mintLicenseTokens_ok_elim {s : RegistryState} {caller p r n tm : Nat}
    {s' : RegistryState} {ids : List Nat}
    (h : mintLicenseTokens s caller p r n tm = .ok (s', ids)) :
    0 < s.balance caller p ∧ (s.bioips p).hasLicense = true ∧
    (s.bioips p).consentState = .ACTIVE ∧ (s', ids) = mintLicenseLoop s p r tm n := by
  unfold mintLicenseTokens at h
  split at h
  · exact absurd h (by simp)
  split at h
  · exact absurd h (by simp)
  split at h
  · exact absurd h (by simp)
  rename_i h1 h2 h3
  refine ⟨Nat.pos_of_ne_zero h1, by simpa using h2, by simpa using h3, ?_⟩
  injection h with h
  exact h.symm


theorem mintLicenseLoop_tokens_gt (p r tm : Nat) :
    ∀ (n : Nat) (s : RegistryState) (id : Nat), s.licCtr + n < id →
    (mintLicenseLoop s p r tm n).1.licenseTokens id = s.licenseTokens id := by
  intro n
  induction n with
  | zero => intro s id _; simp [mintLicenseLoop]
  | succ n ih =>
    intro s id hid
    simp only [mintLicenseLoop]
    rw [ih _ _ (by simp; omega)]
    exact Upd_ne _ _ (by omega)

theorem Inv_mintRoot {s : RegistryState} (hInv : Inv s) (caller ch : Nat) (dt : String)
    (ds bc ip lt tm : Nat) : Inv (mintRootBioIP s caller ch dt ds bc ip lt tm).1 := by
  obtain ⟨i1, i2, i3, i4⟩ := hInv
  refine ⟨?_, ?_, ?_, ?_⟩
  · intro t
    by_cases ht : t = s.tokenCtr + 1 <;> simp [mintRootBioIP, Upd, ht, i1 t]
  · intro l hl
    simp only [mintRootBioIP] at hl ⊢
    exact i2 l hl
  · intro a
    simp only [mintRootBioIP, mintBal]
    rw [if_neg (by omega)]
    exact i3 a
  · intro t h1 h2
    simp only [mintRootBioIP] at h2 ⊢
    by_cases ht : t = s.tokenCtr + 1
    · simp [Upd, ht]
    · rw [Upd_ne _ _ ht]
      exact i4 t h1 (by omega)

theorem Inv_mintDeriv {s : RegistryState} (hInv : Inv s) (caller ch : Nat) (dt : String)
    (ds bc ip tm : Nat) : Inv (mintDerivativeBioIP s caller ch dt ds bc ip tm).1 := by
  obtain ⟨i1, i2, i3, i4⟩ := hInv
  refine ⟨?_, ?_, ?_, ?_⟩
  · intro t
    by_cases ht : t = s.tokenCtr + 1 <;> simp [mintDerivativeBioIP, Upd, ht, i1 t]
  · intro l hl
    simp only [mintDerivativeBioIP] at hl ⊢
    exact i2 l hl
  · intro a
    simp only [mintDerivativeBioIP, mintBal]
    rw [if_neg (by omega)]
    exact i3 a
  · intro t h1 h2
    simp only [mintDerivativeBioIP] at h2 ⊢
    by_cases ht : t = s.tokenCtr + 1
    · simp [Upd, ht]
    · rw [Upd_ne _ _ ht]
      exact i4 t h1 (by omega)

theorem Inv_mintLicense {s s' : RegistryState} {caller p r n tm : Nat} {ids : List Nat}
    (hInv : Inv s) (h : mintLicenseTokens s caller p r n tm = .ok (s', ids)) : Inv s' := by
  obtain ⟨i1, i2, i3, i4⟩ := hInv
  obtain ⟨hbal, _, _, hpair⟩ := mintLicenseTokens_ok_elim h
  have hp0 : p ≠ 0 := by
    intro h0
    rw [h0, i3 caller] at hbal
    exact Nat.lt_irrefl 0 hbal
  have hs' : s' = (mintLicenseLoop s p r tm n).1 := congrArg Prod.fst hpair
  obtain ⟨m1, m2, m3, m4, m5, m6, m7⟩ := mintLicenseLoop_misc p r tm n s
  subst hs'
  refine ⟨?_, ?_, ?_, ?_⟩
  · intro t; rw [m1]; exact i1 t
  · intro l hl
    rcases Nat.lt_or_ge s.licCtr l with hgt | hle
    · rcases le_or_lt l (s.licCtr + n) with hle2 | hgt2
      · rw [mintLicenseLoop_tokens_new p r tm n s l hgt hle2]
        exact hp0
      · rw [mintLicenseLoop_tokens_gt p r tm n s l hgt2] at hl ⊢
        exact i2 l hl
    · rw [mintLicenseLoop_tokens_le p r tm n s l hle] at hl ⊢
      exact i2 l hl
  · intro a; rw [m2]; exact i3 a
  · intro t h1 h2; rw [m1]; rw [m3] at h2; exact i4 t h1 h2

theorem Inv_register {s s' : RegistryState} {caller c l : Nat} (hInv : Inv s)
    (hc0 : caller ≠ 0) (h : registerDerivative s caller c l = .ok s') : Inv s' := by
  obtain ⟨i1, i2, i3, i4⟩ := hInv
  obtain ⟨hbal, hcon, hfor, hact, rfl⟩ := registerDerivative_ok_elim h
  have hP : (s.licenseTokens l).parentTokenId ≠ 0 := i2 l (by rw [hfor]; exact hc0)
  refine ⟨?_, ?_, ?_, ?_⟩
  · intro t
    rw [linkWrites_generation, linkWrites_parentTokenId]
    by_cases ht : t = c
    · simp [ht, hP]
    · simp [ht, i1 t]
  · intro l' hl'
    rw [linkWrites_licenseTokens] at hl' ⊢
    by_cases hll : l' = l
    · simp only [hll, if_pos rfl] at hl' ⊢
      exact i2 l hl'
    · simp only [if_neg hll] at hl' ⊢
      exact i2 l' hl'
  · intro a
    rw [(linkWrites_misc s c l).2.2.1]
    exact i3 a
  · intro t h1 h2
    rw [linkWrites_consentState]
    rw [(linkWrites_misc s c l).1] at h2
    exact i4 t h1 h2



theorem Inv_grantConsent {s s' : RegistryState} {caller t0 : Nat} (hInv : Inv s)
    (h : grantConsent s caller t0 = .ok s') : Inv s' := by
  obtain ⟨i1, i2, i3, i4⟩ := hInv
  unfold grantConsent at h
  split at h
  · exact absurd h (by simp)
  split at h
  · exact absurd h (by simp)
  cases h
  refine ⟨?_, i2, i3, ?_⟩
  · intro t
    by_cases ht : t = t0
    · simp [Upd, ht]
      exact i1 t0
    · simp [Upd, ht]
      exact i1 t
  · intro t h1 h2
    by_cases ht : t = t0 <;> simp [Upd, ht]
    exact i4 t h1 h2

theorem Inv_revokeConsent {s s' : RegistryState} {caller t0 tm : Nat} (hInv : Inv s)
    (h : revokeConsent s caller t0 tm = .ok s') : Inv s' := by
  obtain ⟨i1, i2, i3, i4⟩ := hInv
  unfold revokeConsent at h
  split at h
  · exact absurd h (by simp)
  split at h
  · exact absurd h (by simp)
  cases h
  refine ⟨?_, i2, i3, ?_⟩
  · intro t
    by_cases ht : t = t0
    · simp [Upd, ht]
      exact i1 t0
    · simp [Upd, ht]
      exact i1 t
  · intro t h1 h2
    by_cases ht : t = t0 <;> simp [Upd, ht]
    exact i4 t h1 h2

theorem Inv_burnAndDelete {s s' : RegistryState} {caller t0 mr nc tm : Nat} (hInv : Inv s)
    (h : burnAndDelete s caller t0 mr nc tm = .ok s') : Inv s' := by
  obtain ⟨i1, i2, i3, i4⟩ := hInv
  unfold burnAndDelete at h
  split at h
  · exact absurd h (by simp)
  cases h
  refine ⟨?_, i2, ?_, ?_⟩
  · intro t
    by_cases ht : t = t0
    · simp [Upd, ht]
      exact i1 t0
    · simp [Upd, ht]
      exact i1 t
  · intro a
    simp only [burnBal]
    split
    · rw [i3 a]
    · exact i3 a
  · intro t h1 h2
    by_cases ht : t = t0 <;> simp [Upd, ht]
    exact i4 t h1 h2

theorem Inv_grantPermission {s s' : RegistryState} {caller t0 w : Nat} (hInv : Inv s)
    (h : grantPermission s caller t0 w = .ok s') : Inv s' := by
  obtain ⟨i1, i2, i3, i4⟩ := hInv
  unfold grantPermission at h
  split at h
  · exact absurd h (by simp)
  split at h
  · exact absurd h (by simp)
  cases h
  exact ⟨i1, i2, i3, i4⟩

theorem Inv_revokePermission {s s' : RegistryState} {caller t0 w : Nat} (hInv : Inv s)
    (h : revokePermission s caller t0 w = .ok s') : Inv s' := by
  obtain ⟨i1, i2, i3, i4⟩ := hInv
  unfold revokePermission at h
  split at h
  · exact absurd h (by simp)
  cases h
  exact ⟨i1, i2, i3, i4⟩

theorem Inv_initial : Inv initialState := by
  refine ⟨?_, ?_, ?_, ?_⟩
  · intro t; simp [initialState, zeroAsset]
  · intro l hl; exact absurd rfl hl
  · intro a; rfl
  · intro t h1 h2
    simp [initialState] at h2
    omega

theorem reachable_inv {s : RegistryState} (h : Reachable s) : Inv s := by
  induction h with
  | init => exact Inv_initial
  | step hs hc hex ih =>
    rename_i s s' op
    cases op with
    | mintRootBioIP c ch dt ds bc ip lt tm =>
      simp only [exec] at hex
      injection hex with hex
      rw [← hex]
      exact Inv_mintRoot ih c ch dt ds bc ip lt tm
    | mintLicenseTokens c p r n tm =>
      simp only [exec] at hex
      cases hml : mintLicenseTokens s c p r n tm with
      | error e => rw [hml] at hex; exact absurd hex (by simp [Except.map])
      | ok pr =>
        rw [hml] at hex
        simp only [Except.map] at hex
        injection hex with hex
        rw [← hex]
        exact Inv_mintLicense ih (by rw [hml])
    | mintDerivativeBioIP c ch dt ds bc ip tm =>
      simp only [exec] at hex
      injection hex with hex
      rw [← hex]
      exact Inv_mintDeriv ih c ch dt ds bc ip tm
    | registerDerivative c cid lid =>
      simp only [exec] at hex
      exact Inv_register ih (by simpa [Op.caller] using hc) hex
    | grantConsent c t => exact Inv_grantConsent ih hex
    | revokeConsent c t tm => exact Inv_revokeConsent ih hex
    | burnAndDelete c t mr nc tm => exact Inv_burnAndDelete ih hex
    | grantPermission c t w => exact Inv_grantPermission ih hex
    | revokePermission c t w => exact Inv_revokePermission ih hex


theorem lineageWalk_length (s : RegistryState) : ∀ (n t : Nat), (lineageWalk s n t).length = n := by
  intro n
  induction n with
  | zero => intro t; rfl
  | succ n ih => intro t; simp [lineageWalk, ih]

theorem lineageWalk_getElem (s : RegistryState) :
    ∀ (n t j : Nat), j < n → (lineageWalk s n t)[j]? = some (iterParent s (j + 1) t) := by
  intro n
  induction n with
  | zero => intro t j h; omega
  | succ n ih =>
    intro t j h
    cases j with
    | zero => simp [lineageWalk, iterParent]
    | succ j =>
      simp only [lineageWalk, List.getElem?_cons_succ]
      rw [ih _ j (by omega)]
      rfl

theorem getLineage_length (s : RegistryState) (t : Nat) :
    (getLineage s t).length = (s.bioips t).generation := by
  simp [getLineage, lineageWalk_length]

theorem getLineage_getD (s : RegistryState) (t i : Nat)
    (h : i < (s.bioips t).generation) :
    (getLineage s t).getD i 0 = iterParent s ((s.bioips t).generation - i) t := by
  unfold getLineage
  have hlen : (lineageWalk s (s.bioips t).generation t).length = (s.bioips t).generation :=
    lineageWalk_length s _ t
  have hi : i < (lineageWalk s (s.bioips t).generation t).length := by omega
  rw [List.getD_eq_getElem?_getD, List.getElem?_reverse hi, hlen]
  rw [lineageWalk_getElem s _ t ((s.bioips t).generation - 1 - i) (by omega)]
  simp only [Option.getD_some]
  congr 1
  omega

theorem iterParent_generation {s : RegistryState} (hwf : WellFormedLineage s) :
    ∀ (k t : Nat), k ≤ (s.bioips t).generation →
    (s.bioips (iterParent s k t)).generation = (s.bioips t).generation - k := by
  intro k
  induction k with
  | zero => intro t _; rfl
  | succ k ih =>
    intro t hk
    have hp0 : (s.bioips t).parentTokenId ≠ 0 := by
      intro h0
      have := (hwf t).1 h0
      omega
    have hgen : (s.bioips t).generation =
        (s.bioips (s.bioips t).parentTokenId).generation + 1 := (hwf t).2 hp0
    have hstep : iterParent s (k + 1) t = iterParent s k ((s.bioips t).parentTokenId) := rfl
    rw [hstep, ih _ (by omega)]
    omega


/-- The shared trace state traceS7 is reachable from the deployed contract. -/
theorem reachable_traceS7 : Reachable traceS7 :=
  @Reachable.step _ _ traceOp7
    (@Reachable.step _ _ traceOp6
      (@Reachable.step _ _ traceOp5
        (@Reachable.step _ _ traceOp4
          (@Reachable.step _ _ traceOp3
            (@Reachable.step _ _ traceOp2
              (@Reachable.step _ _ traceOp1 .init (by decide) rfl)
              (by decide) rfl)
            (by decide) rfl)
          (by decide) rfl)
        (by decide) rfl)
      (by decide) rfl)
    (by decide) rfl

/-- The trace state traceS8 (root 1 re-registered under root 2) is reachable. -/
theorem reachable_traceS8 : Reachable traceS8 :=
  @Reachable.step _ _ (.registerDerivative 100 1 2) reachable_traceS7 (by decide) rfl

/-- Claim C1 (amended): registerDerivative succeeds only when the license
token is unconsumed, was minted for the caller, and the parent is ACTIVE; a
second consume attempt on the same token with another child THAT THE CALLER
OWNS fails with AlreadyConsumed (the require string "License token already
used"); and any failing call leaves the state unchanged. The amendment
restricts the AlreadyConsumed guarantee to children owned by the caller,
because the source checks child ownership before the consumption flag. -/
theorem c1_license_single_consumption :
    (∀ (s : RegistryState) (caller c l : Nat) (s' : RegistryState),
      registerDerivative s caller c l = .ok s' →
        (s.licenseTokens l).consumed = false ∧ (s.licenseTokens l).mintedFor = caller ∧
        (s.bioips (s.licenseTokens l).parentTokenId).consentState = .ACTIVE) ∧
    (∀ (s : RegistryState) (caller c l : Nat),
      (s.licenseTokens l).consumed = true → 0 < s.balance caller c →
      registerDerivative s caller c l = .error .licenseTokenAlreadyUsed) ∧
    (∀ (s : RegistryState) (caller c l : Nat) (e : RegErr),
      registerDerivative s caller c l = .error e →
      stepD s (.registerDerivative caller c l) = s) := by
  refine ⟨?_, ?_, ?_⟩
  · intro s caller c l s' h
    obtain ⟨_, h2, h3, h4, _⟩ := registerDerivative_ok_elim h
    exact ⟨h2, h3, h4⟩
  · intro s caller c l h1 h2
    exact registerDerivative_error_already h2 h1
  · intro s caller c l e h
    simp [stepD, exec, h]

/-- Witness for C1: in the reachable trace state the consumed license 1 is
rejected with AlreadyConsumed when retried with the caller-owned child 3. -/
theorem c1_license_single_consumption_witness :
    registerDerivative traceS7 100 3 1 = .error .licenseTokenAlreadyUsed :=
  c1_license_single_consumption.2.1 traceS7 100 3 1 (by decide) (by decide)

/-- Counterexample for C1 as stated: in the reachable state traceS7 license 1
is consumed and was minted for wallet 100, yet a second consume attempt with
child 4 — owned by wallet 200, not the caller — fails with the ownership
error, not with AlreadyConsumed. -/
theorem c1_counterexample :
    Reachable traceS7 ∧
    (traceS7.licenseTokens 1).consumed = true ∧
    (traceS7.licenseTokens 1).mintedFor = 100 ∧
    registerDerivative traceS7 100 4 1 = .error .notChildOwner ∧
    RegErr.notChildOwner ≠ RegErr.licenseTokenAlreadyUsed :=
  ⟨reachable_traceS7, by decide, by decide, rfl, by decide⟩

/-- Claim C4 (amended): in every reachable state, generation is zero exactly
when parentTokenId is zero; and each successful registerDerivative leaves the
child one generation below the parent it was linked to at that moment. The
original global form — every linked asset sits one generation below its
parent in EVERY reachable state — fails, because an asset that already has
children can itself be re-registered as a derivative. -/
theorem c4_generation_invariant :
    (∀ (s : RegistryState), Reachable s → ∀ t,
      ((s.bioips t).generation = 0 ↔ (s.bioips t).parentTokenId = 0)) ∧
    (∀ (s : RegistryState) (caller c l : Nat) (s' : RegistryState),
      registerDerivative s caller c l = .ok s' →
      (s'.bioips c).parentTokenId = (s.licenseTokens l).parentTokenId ∧
      (s'.bioips c).generation =
        (s.bioips (s.licenseTokens l).parentTokenId).generation + 1) := by
  constructor
  · intro s hs t
    exact (reachable_inv hs).1 t
  · intro s caller c l s' h
    obtain ⟨_, _, _, _, rfl⟩ := registerDerivative_ok_elim h
    rw [linkWrites_parentTokenId, linkWrites_generation]
    simp

/-- Witness for C4: the generation and parent-link correspondence, applied to
asset 3 of the reachable trace state. -/
theorem c4_generation_invariant_witness :
    (traceS7.bioips 3).generation = 0 ↔ (traceS7.bioips 3).parentTokenId = 0 :=
  c4_generation_invariant.1 traceS7 reachable_traceS7 3

/-- Counterexample for C4 as stated: in the reachable state traceS8, asset 3
has parent 1 and generation 1, but asset 1 was re-registered under root 2 and
now has generation 1 as well, so generation does not equal the parent
generation plus one. -/
theorem c4_counterexample :
    ¬ (∀ (s : RegistryState), Reachable s → ∀ t,
        (s.bioips t).parentTokenId ≠ 0 →
        (s.bioips t).generation = (s.bioips (s.bioips t).parentTokenId).generation + 1) := by
  intro hclaim
  have h3 := hclaim traceS8 reachable_traceS8 3 (by decide)
  exact absurd h3 (by decide)

/-- Claim C5: when registerDerivative succeeds for a child via license token
l, the post-state sets the child parent link, generation one above the
parent, the consumed license token id, the inherited license terms, appends
the child to the parent childTokenIds, and marks the token consumed by the
child. -/
theorem c5_registerDerivative_post {s : RegistryState} {caller c l : Nat} {s' : RegistryState}
    (h : registerDerivative s caller c l = .ok s') :
    (s'.bioips c).parentTokenId = (s.licenseTokens l).parentTokenId ∧
    (s'.bioips c).generation = (s.bioips (s.licenseTokens l).parentTokenId).generation + 1 ∧
    (s'.bioips c).licenseTokenId = l ∧
    (s'.bioips c).licenseTermsId = (s.bioips (s.licenseTokens l).parentTokenId).licenseTermsId ∧
    (s'.bioips (s.licenseTokens l).parentTokenId).childTokenIds =
      (s.bioips (s.licenseTokens l).parentTokenId).childTokenIds ++ [c] ∧
    (s'.licenseTokens l).consumedBy = c ∧ (s'.licenseTokens l).consumed = true := by
  obtain ⟨_, _, _, _, rfl⟩ := registerDerivative_ok_elim h
  rw [linkWrites_parentTokenId, linkWrites_generation, linkWrites_licenseTokenId,
    linkWrites_licenseTermsId, linkWrites_childTokenIds, linkWrites_licenseTokens]
  simp

/-- Witness for C5: the post-state facts at the concrete trace step that
links child 3 under root 1 by consuming license 1. -/
theorem c5_registerDerivative_post_witness :
    (traceS7.bioips 3).parentTokenId = (traceS6.licenseTokens 1).parentTokenId ∧
    (traceS7.bioips 3).generation =
      (traceS6.bioips (traceS6.licenseTokens 1).parentTokenId).generation + 1 ∧
    (traceS7.bioips 3).licenseTokenId = 1 ∧
    (traceS7.bioips 3).licenseTermsId =
      (traceS6.bioips (traceS6.licenseTokens 1).parentTokenId).licenseTermsId ∧
    (traceS7.bioips (traceS6.licenseTokens 1).parentTokenId).childTokenIds =
      (traceS6.bioips (traceS6.licenseTokens 1).parentTokenId).childTokenIds ++ [3] ∧
    (traceS7.licenseTokens 1).consumedBy = 3 ∧ (traceS7.licenseTokens 1).consumed = true :=
  @c5_registerDerivative_post traceS6 100 3 1 traceS7 rfl

/-- Claim C9: registerDerivative has no precondition that the child be
unlinked: from the reachable state traceS7, where child 3 is already linked
under root 1, consuming the fresh license 2 (minted for the caller) succeeds
and overwrites the child parent, generation, license token and license terms,
while 3 stays recorded in the childTokenIds of root 1. -/
theorem c9_relink_overwrites :
    Reachable traceS7 ∧
    (traceS7.bioips 3).parentTokenId = 1 ∧
    (traceS7.licenseTokens 2).consumed = false ∧
    (traceS7.licenseTokens 2).mintedFor = 100 ∧
    registerDerivative traceS7 100 3 2 = .ok traceS9 ∧
    (traceS9.bioips 3).parentTokenId = 2 ∧
    (traceS9.bioips 3).generation = 1 ∧
    (traceS9.bioips 3).licenseTokenId = 2 ∧
    (traceS9.bioips 3).licenseTermsId = 20 ∧
    3 ∈ (traceS9.bioips 1).childTokenIds :=
  ⟨reachable_traceS7, by decide, by decide, by decide, rfl,
   by decide, by decide, by decide, by decide, by decide⟩



theorem revokeConsent_ok_elim {s s₂ : RegistryState} {caller t0 tm : Nat}
    (h : revokeConsent s caller t0 tm = .ok s₂) :
    s.balance caller t0 ≠ 0 ∧ (s.bioips t0).consentState = .ACTIVE ∧
    s₂.balance = s.balance ∧
    s₂.bioips t0 =
      { s.bioips t0 with consentState := .REVOKED, revokedAt := tm } := by
  unfold revokeConsent at h
  split at h
  · exact absurd h (by simp)
  split at h
  · exact absurd h (by simp)
  rename_i h1 h2
  cases h
  refine ⟨h1, by simpa using h2, rfl, ?_⟩
  exact Upd_same _ _ _

/-- Claim C2: in both registries, checkConsent returns true exactly when the
consent state is ACTIVE and the identity is the owner or holds a delegated
permission; every non-ACTIVE state — PENDING, REVOKED or DELETED — yields
false for every identity, including the owner. -/
theorem c2_checkConsent_iff :
    (∀ (s : RegistryState) (t : Nat) (w : Addr),
      (checkConsent s t w = true ↔
        ((s.bioips t).consentState = .ACTIVE ∧
          ((s.bioips t).owner = w ∨ s.permittedWallets t w = true))) ∧
      ((s.bioips t).consentState ≠ .ACTIVE → checkConsent s t w = false)) ∧
    (∀ (s : ConsentRegistry.CRState) (t : Nat) (w : Addr),
      (ConsentRegistry.checkConsent s t w = true ↔
        ((s.consents t).state = .ACTIVE ∧
          ((s.consents t).owner = w ∨ s.permittedWallets t w = true))) ∧
      ((s.consents t).state ≠ .ACTIVE → ConsentRegistry.checkConsent s t w = false)) := by
  constructor
  · intro s t w
    constructor
    · unfold checkConsent
      split
      · simp_all
      · split
        · simp_all
        · split <;> simp_all
    · intro hst
      unfold checkConsent
      rw [if_pos hst]
  · intro s t w
    constructor
    · unfold ConsentRegistry.checkConsent
      split
      · simp_all
      · split
        · simp_all
        · split <;> simp_all
    · intro hst
      unfold ConsentRegistry.checkConsent
      rw [if_pos hst]

/-- Witness for C2: fail-closed checks on a DELETED asset of the reachable
trace (owner wallet 100 denied) and on a REVOKED consent entry (owner 7
denied). -/
theorem c2_checkConsent_iff_witness :
    checkConsent traceS10 2 100 = false ∧
    ConsentRegistry.checkConsent ConsentRegistry.sampleCR 1 7 = false :=
  ⟨(c2_checkConsent_iff.1 traceS10 2 100).2 (by decide),
   (c2_checkConsent_iff.2 ConsentRegistry.sampleCR 1 7).2 (by decide)⟩

/-- Claim C6 (amended): burnAndDelete by the holder of the asset token
succeeds regardless of the prior consent state, marks the asset DELETED and
records the deletion proof; a second burnAndDelete on the same token then
fails — but with the ownership error NotBioIPOwner, because the NFT was
burned — leaving the state, and hence the recorded proof, unchanged. The
registry defines no AlreadyDeleted error. -/
theorem c6_burnAndDelete :
    ∀ (s : RegistryState) (caller t mr nc tm mr' nc' tm' : Nat),
      s.balance caller t = 1 →
      ∃ s', burnAndDelete s caller t mr nc tm = .ok s' ∧
        (s'.bioips t).consentState = .DELETED ∧
        s'.deletionProofs t = ⟨t, tm, mr, nc, []⟩ ∧
        burnAndDelete s' caller t mr' nc' tm' = .error .notBioIPOwner ∧
        stepD s' (.burnAndDelete caller t mr' nc' tm') = s' := by
  intro s caller t mr nc tm mr' nc' tm' hbal
  have hne : s.balance caller t ≠ 0 := by omega
  refine ⟨stepD s (.burnAndDelete caller t mr nc tm), ?_, ?_, ?_, ?_, ?_⟩ <;>
    simp [stepD, exec, burnAndDelete, hne, Upd, burnBal, hbal]

/-- Witness for C6: burning root 2 of the reachable trace, then attempting a
second burn. -/
theorem c6_burnAndDelete_witness :
    ∃ s', burnAndDelete traceS7 100 2 77 9 5 = .ok s' ∧
      (s'.bioips 2).consentState = .DELETED ∧
      s'.deletionProofs 2 = ⟨2, 5, 77, 9, []⟩ ∧
      burnAndDelete s' 100 2 88 10 6 = .error .notBioIPOwner ∧
      stepD s' (.burnAndDelete 100 2 88 10 6) = s' :=
  c6_burnAndDelete traceS7 100 2 77 9 5 88 10 6 (by decide)

/-- Counterexample for C6 as stated: after burning root 2, the second
burnAndDelete fails with the ownership require — there is no AlreadyDeleted
check anywhere in the contract — while the stored proof is unchanged. -/
theorem c6_counterexample :
    burnAndDelete traceS7 100 2 77 9 5 = .ok traceS10 ∧
    burnAndDelete traceS10 100 2 88 10 6 = .error .notBioIPOwner ∧
    traceS10.deletionProofs 2 = ⟨2, 5, 77, 9, []⟩ :=
  ⟨rfl, rfl, by decide⟩

/-- Claim C7: mintLicenseTokens succeeds only when the caller holds the
parent token, the parent has license terms, and the parent consent is
ACTIVE, and then allocates the requested number of fresh unconsumed tokens
bound to that parent and receiver; otherwise it fails with the ownership
error or a license-unavailability error (no license, or consent not active);
in particular minting after revoking consent fails with the consent error. -/
theorem c7_mintLicenseTokens :
    (∀ (s : RegistryState) (caller p r n tm : Nat) (s' : RegistryState) (ids : List Nat),
      mintLicenseTokens s caller p r n tm = .ok (s', ids) →
        0 < s.balance caller p ∧ (s.bioips p).hasLicense = true ∧
        (s.bioips p).consentState = .ACTIVE ∧
        ids = (List.range n).map (fun i => s.licCtr + 1 + i) ∧
        ∀ id ∈ ids, s.licCtr < id ∧ s'.licenseTokens id = ⟨id, p, r, tm, false, 0⟩) ∧
    (∀ (s : RegistryState) (caller p r n tm : Nat),
      s.balance caller p = 0 →
        mintLicenseTokens s caller p r n tm = .error .notBioIPOwner) ∧
    (∀ (s : RegistryState) (caller p r n tm : Nat),
      0 < s.balance caller p → (s.bioips p).hasLicense = false →
        mintLicenseTokens s caller p r n tm = .error .parentHasNoLicense) ∧
    (∀ (s : RegistryState) (caller p r n tm : Nat),
      0 < s.balance caller p → (s.bioips p).hasLicense = true →
      (s.bioips p).consentState ≠ .ACTIVE →
        mintLicenseTokens s caller p r n tm = .error .consentNotActive) ∧
    (∀ (s : RegistryState) (caller p r n tm tm' : Nat) (s₂ : RegistryState),
      (s.bioips p).hasLicense = true →
      revokeConsent s caller p tm = .ok s₂ →
        mintLicenseTokens s₂ caller p r n tm' = .error .consentNotActive) := by
  refine ⟨?_, ?_, ?_, ?_, ?_⟩
  · intro s caller p r n tm s' ids h
    obtain ⟨h1, h2, h3, hpair⟩ := mintLicenseTokens_ok_elim h
    have hs' : s' = (mintLicenseLoop s p r tm n).1 := congrArg Prod.fst hpair
    have hids : ids = (mintLicenseLoop s p r tm n).2 := congrArg Prod.snd hpair
    refine ⟨h1, h2, h3, ?_, ?_⟩
    · rw [hids, mintLicenseLoop_ids]
    · intro id hid
      rw [hids, mintLicenseLoop_ids] at hid
      simp only [List.mem_map, List.mem_range] at hid
      obtain ⟨i, hi, rfl⟩ := hid
      refine ⟨by omega, ?_⟩
      rw [hs', mintLicenseLoop_tokens_new p r tm n s _ (by omega) (by omega)]
  · intro s caller p r n tm h
    unfold mintLicenseTokens
    rw [if_pos h]
  · intro s caller p r n tm h1 h2
    unfold mintLicenseTokens
    rw [if_neg (by omega), if_pos (by simp [h2])]
  · intro s caller p r n tm h1 h2 h3
    unfold mintLicenseTokens
    rw [if_neg (by omega), if_neg (by simp [h2]), if_pos (by simp [h3])]
  · intro s caller p r n tm tm' s₂ hlic h
    obtain ⟨hbal, hact, hbal2, hp⟩ := revokeConsent_ok_elim h
    unfold mintLicenseTokens
    rw [hbal2, if_neg hbal, hp]
    rw [if_neg (by simp [hlic]), if_pos (by simp)]

/-- Witness for C7: revoking consent on root 1 of the reachable trace and
then minting from it fails with the consent error. -/
theorem c7_mintLicenseTokens_witness :
    mintLicenseTokens (stepD traceS7 (.revokeConsent 100 1 9)) 100 1 100 1 10 =
      .error .consentNotActive :=
  c7_mintLicenseTokens.2.2.2.2 traceS7 100 1 100 1 9 10
    (stepD traceS7 (.revokeConsent 100 1 9)) (by decide) rfl



/-- The three-asset chain satisfies the lineage well-formedness discipline. -/
theorem chainState_wf : WellFormedLineage chainState := by
  intro t
  by_cases h1 : t = 1
  · subst h1; refine ⟨fun _ => rfl, fun h => absurd rfl h⟩
  by_cases h2 : t = 2
  · subst h2; exact ⟨fun h => absurd h (by decide), fun _ => by decide⟩
  by_cases h3 : t = 3
  · subst h3; exact ⟨fun h => absurd h (by decide), fun _ => by decide⟩
  have hz : chainState.bioips t = zeroAsset := by
    show chainAssets t = zeroAsset
    unfold chainAssets
    rw [Upd_ne _ _ h3, Upd_ne _ _ h2, Upd_ne _ _ h1]
  refine ⟨fun _ => by rw [hz]; rfl, fun h => ?_⟩
  rw [hz] at h
  exact absurd rfl h

/-- Claim C8 (amended): for every asset of a well-formed lineage tree,
getLineage returns a sequence of length exactly the generation whose entry at
position i is the (generation - i)-fold parent: the sequence STARTS at the
root (position 0 holds an asset of generation zero) and ENDS at the immediate
parent. The original claim had the order reversed. -/
theorem c8_getLineage (s : RegistryState) (t : Nat) (hwf : WellFormedLineage s) :
    (getLineage s t).length = (s.bioips t).generation ∧
    (∀ i, i < (s.bioips t).generation →
      (getLineage s t).getD i 0 = iterParent s ((s.bioips t).generation - i) t) ∧
    (0 < (s.bioips t).generation →
      (getLineage s t).getD ((s.bioips t).generation - 1) 0 = (s.bioips t).parentTokenId ∧
      (s.bioips ((getLineage s t).getD 0 0)).generation = 0) := by
  refine ⟨getLineage_length s t, fun i hi => getLineage_getD s t i hi, fun hpos => ⟨?_, ?_⟩⟩
  · rw [getLineage_getD s t _ (by omega)]
    rw [show (s.bioips t).generation - ((s.bioips t).generation - 1) = 1 from by omega]
    rfl
  · rw [getLineage_getD s t 0 (by omega)]
    rw [show (s.bioips t).generation - 0 = (s.bioips t).generation from by omega]
    rw [iterParent_generation hwf _ t (by omega)]
    omega

/-- Witness for C8: the lineage facts instantiated on the three-asset
chain at the grandchild. -/
theorem c8_getLineage_witness :
    (getLineage chainState 3).length = (chainState.bioips 3).generation ∧
    (∀ i, i < (chainState.bioips 3).generation →
      (getLineage chainState 3).getD i 0 =
        iterParent chainState ((chainState.bioips 3).generation - i) 3) ∧
    (0 < (chainState.bioips 3).generation →
      (getLineage chainState 3).getD ((chainState.bioips 3).generation - 1) 0 =
        (chainState.bioips 3).parentTokenId ∧
      (chainState.bioips ((getLineage chainState 3).getD 0 0)).generation = 0) :=
  c8_getLineage chainState 3 chainState_wf

/-- Counterexample for C8 as stated: in the well-formed three-asset chain the
grandchild has immediate parent 2, yet getLineage returns the list [1, 2]
whose first element is the root 1, not the immediate parent. -/
theorem c8_counterexample :
    WellFormedLineage chainState ∧
    getLineage chainState 3 = [1, 2] ∧
    (chainState.bioips 3).parentTokenId = 2 ∧
    (getLineage chainState 3).head? ≠ some ((chainState.bioips 3).parentTokenId) :=
  ⟨chainState_wf, by decide, by decide, by decide⟩

/-- Claim C10: the PENDING consent state is unreachable for existing assets:
both mint operations create assets directly in state ACTIVE, and in every
reachable state every existing asset is ACTIVE, REVOKED or DELETED. -/
theorem c10_no_pending :
    (∀ (s : RegistryState), Reachable s → ∀ t, 1 ≤ t → t ≤ s.tokenCtr →
      (s.bioips t).consentState = .ACTIVE ∨ (s.bioips t).consentState = .REVOKED ∨
      (s.bioips t).consentState = .DELETED) ∧
    (∀ (s : RegistryState) (caller ch : Nat) (dt : String) (ds bc ip lt tm : Nat),
      ((mintRootBioIP s caller ch dt ds bc ip lt tm).1.bioips (s.tokenCtr + 1)).consentState =
        .ACTIVE ∧
      ((mintDerivativeBioIP s caller ch dt ds bc ip tm).1.bioips (s.tokenCtr + 1)).consentState =
        .ACTIVE) := by
  constructor
  · intro s hs t h1 h2
    have h4 := (reachable_inv hs).2.2.2 t h1 h2
    cases h : (s.bioips t).consentState with
    | PENDING => exact absurd h h4
    | ACTIVE => exact Or.inl rfl
    | REVOKED => exact Or.inr (Or.inl rfl)
    | DELETED => exact Or.inr (Or.inr rfl)
  · intro s caller ch dt ds bc ip lt tm
    constructor
    · simp [mintRootBioIP, Upd]
    · simp [mintDerivativeBioIP, Upd]

/-- Witness for C10: asset 1 of the reachable trace state is in one of the
three non-PENDING states. -/
theorem c10_no_pending_witness :
    (traceS7.bioips 1).consentState = .ACTIVE ∨ (traceS7.bioips 1).consentState = .REVOKED ∨
    (traceS7.bioips 1).consentState = .DELETED :=
  c10_no_pending.1 traceS7 reachable_traceS7 1 (by decide) (by decide)




end BioIPRegistry

end BioFS
